import Mathlib

/-!
# The HDR bloom pipeline of `main.go`

A shallow embedding of the four Kage fragment shaders of `main.go`
(colour copy, blur, threshold, tonemap) and of `Game.DrawFinalScreen`.

* Shader scalars (`float`) are exact rationals: decimal literals such as
  `0.15` denote the rational `15/100`, and `+`, `*`, `/` are the field
  operations of `ℚ`.
* `shaders/prelude.kage` is not part of the sources at hand; the three
  functions the shaders use from it are fields of `Prelude`, over which every
  shader is parametrised.
* The Kage built-ins `imageSrc0At`, `imageSrc0UnsafeAt`, `imageSrc1UnsafeAt`
  are passed to each `Fragment` as functions from a position to a pixel;
  `SourceImage.imageSrc0At` is the bounds-checked read of a finite image,
  which yields `vec4(0)` outside the source region.
-/

namespace EbitenHDR

/-! ## Kage vectors -/

/-- Kage `vec2`. -/
structure Vec2 where
  x : ℚ
  y : ℚ
deriving DecidableEq, Repr

/-- Kage `vec3`. -/
structure Vec3 where
  x : ℚ
  y : ℚ
  z : ℚ
deriving DecidableEq, Repr

/-- Kage `vec4`. -/
structure Vec4 where
  x : ℚ
  y : ℚ
  z : ℚ
  w : ℚ
deriving DecidableEq, Repr

/-- Kage `vec2 + vec2`, componentwise. -/
instance : Add Vec2 := ⟨fun a b => ⟨a.x + b.x, a.y + b.y⟩⟩

/-- The zero value of a declared `vec3` variable (`var res vec3`). -/
instance : Zero Vec3 := ⟨⟨0, 0, 0⟩⟩

/-- Kage `vec3 + vec3`, componentwise. -/
instance : Add Vec3 := ⟨fun a b => ⟨a.x + b.x, a.y + b.y, a.z + b.z⟩⟩

/-- Kage `vec3 * vec3`, componentwise. -/
instance : Mul Vec3 := ⟨fun a b => ⟨a.x * b.x, a.y * b.y, a.z * b.z⟩⟩

/-- Kage `vec3 / vec3`, componentwise. -/
instance : Div Vec3 := ⟨fun a b => ⟨a.x / b.x, a.y / b.y, a.z / b.z⟩⟩

/-- Kage `vec3(s)`: every component is `s`. -/
def Vec3.splat (s : ℚ) : Vec3 := ⟨s, s, s⟩

/-- Kage `vec4(s)`: every component is `s`. -/
def Vec4.splat (s : ℚ) : Vec4 := ⟨s, s, s, s⟩

/-- Kage swizzle `.xyz`. -/
def Vec4.xyz (v : Vec4) : Vec3 := ⟨v.x, v.y, v.z⟩

/-- Kage `vec4(v, w)` for a `vec3` and a scalar. -/
def Vec4.ofVec3 (v : Vec3) (w : ℚ) : Vec4 := ⟨v.x, v.y, v.z, w⟩

/-- Kage `vec3 * float`. -/
def Vec3.mulS (v : Vec3) (s : ℚ) : Vec3 := ⟨v.x * s, v.y * s, v.z * s⟩

/-- Kage `float * vec3`. -/
def Vec3.sMul (s : ℚ) (v : Vec3) : Vec3 := ⟨s * v.x, s * v.y, s * v.z⟩

/-- Kage `vec3 + float`. -/
def Vec3.addS (v : Vec3) (s : ℚ) : Vec3 := ⟨v.x + s, v.y + s, v.z + s⟩

/-- Kage `vec3 - float`. -/
def Vec3.subS (v : Vec3) (s : ℚ) : Vec3 := ⟨v.x - s, v.y - s, v.z - s⟩

/-- The component of a `vec3` for a channel index: 0 is `x`, 1 is `y`, 2 is
`z`. -/
def Vec3.get (v : Vec3) (i : Fin 3) : ℚ :=
  match i with
  | 0 => v.x
  | 1 => v.y
  | 2 => v.z

/-! ## The prelude and the samplers -/

/-- The three functions of `shaders/prelude.kage` that the shaders of
`main.go` call. The file is not among the sources, so the functions are
parameters of every shader. -/
structure Prelude where
  LogLuvEncode : Vec3 → Vec4
  LogLuvDecode : Vec4 → Vec3
  LogLuvLuma : Vec4 → ℚ

/-- A source image as the shader sees it: the pixel a sampling built-in
returns at a position. -/
abbrev Sampler := Vec2 → Vec4

/-- A source image bound to a shader: the source region, given by its origin
and size in texels (`imageSrc0Origin()`, `imageSrc0Size()`), and the pixel
stored at each position. -/
structure SourceImage where
  origin : Vec2
  size : Vec2
  pixel : Vec2 → Vec4

/-- Whether a position lies in the source region of the image. -/
def SourceImage.contains (im : SourceImage) (p : Vec2) : Prop :=
  im.origin.x ≤ p.x ∧ p.x < im.origin.x + im.size.x ∧
    im.origin.y ≤ p.y ∧ p.y < im.origin.y + im.size.y

instance (im : SourceImage) (p : Vec2) : Decidable (im.contains p) := by
  unfold SourceImage.contains
  exact inferInstance

/-- The Kage built-in `imageSrc0At` on a bound image: the pixel at a position
in the source region, and `vec4(0)` at a position outside it. -/
def SourceImage.imageSrc0At (im : SourceImage) : Sampler :=
  fun p => if im.contains p then im.pixel p else Vec4.splat 0

/-- The image of `w` by `h` texels at the origin whose every pixel is `c`. -/
def uniformImage (w h : ℚ) (c : Vec4) : SourceImage :=
  ⟨⟨0, 0⟩, ⟨w, h⟩, fun _ => c⟩

/-- An instance of `Prelude` for evaluating the shaders on concrete inputs:
the colour is stored in `xyz`, the luma is the mean of the three channels.
It is not the codec of `prelude.kage`. -/
def plainPrelude : Prelude where
  LogLuvEncode := fun v => Vec4.ofVec3 v 1
  LogLuvDecode := fun p => p.xyz
  LogLuvLuma := fun p => (p.x + p.y + p.z) / 3

/-! ## `shaderCopySource` -/

namespace Copy

/-- `Fragment` of `shaderCopySource`. -/
def Fragment (P : Prelude) (imageSrc0UnsafeAt : Sampler)
    (_dstPos : Vec4) (srcPos : Vec2) (color : Vec4) : Vec4 :=
  let px := (imageSrc0UnsafeAt srcPos).xyz * color.xyz
  P.LogLuvEncode px

end Copy

/-! ## `shaderBlurSource` -/

namespace Blur

/-- The uniform variables of the blur shader. -/
structure Uniforms where
  Spread : ℚ
  ScaleX : ℚ
  ScaleY : ℚ
deriving DecidableEq, Repr

/-- `tap` of `shaderBlurSource`. -/
def tap (P : Prelude) (imageSrc0At : Sampler) (u : Uniforms)
    (pos : Vec2) (offset : ℚ) (scale : ℚ) : Vec3 :=
  let offset := offset * u.Spread
  let lluv := imageSrc0At (pos + Vec2.mk (offset * u.ScaleX) (offset * u.ScaleY))
  let rgb := P.LogLuvDecode lluv
  rgb.mulS scale

/-- `Fragment` of `shaderBlurSource`: nine `res += tap(...)` statements on a
zero-initialised `res`, then one `LogLuvEncode`. -/
def Fragment (P : Prelude) (imageSrc0At : Sampler) (u : Uniforms)
    (_dstPos : Vec4) (srcPos : Vec2) (_color : Vec4) : Vec4 :=
  let res : Vec3 := 0
  let res := res + tap P imageSrc0At u srcPos (-4) 0.05
  let res := res + tap P imageSrc0At u srcPos (-3) 0.09
  let res := res + tap P imageSrc0At u srcPos (-2) 0.12
  let res := res + tap P imageSrc0At u srcPos (-1) 0.15
  let res := res + tap P imageSrc0At u srcPos 0 0.16
  let res := res + tap P imageSrc0At u srcPos 1 0.15
  let res := res + tap P imageSrc0At u srcPos 2 0.12
  let res := res + tap P imageSrc0At u srcPos 3 0.09
  let res := res + tap P imageSrc0At u srcPos 4 0.05
  P.LogLuvEncode res

/-- The kernel as the specification lists it, `(offset, weight)` per tap. -/
def specKernel : List (ℚ × ℚ) :=
  [(-4, 0.05), (-3, 0.09), (-2, 0.12), (-1, 0.15), (0, 0.16),
   (1, 0.15), (2, 0.12), (3, 0.09), (4, 0.05)]

/-- The blur as the specification words it: the encoding of the sum, over
the taps of `specKernel`, of the weight times the decoded sample at
`pos + (offset*Spread*ScaleX, offset*Spread*ScaleY)`. -/
def specFragment (P : Prelude) (sample : Sampler) (u : Uniforms) (pos : Vec2) : Vec4 :=
  P.LogLuvEncode
    ((specKernel.map fun t =>
        Vec3.sMul t.2
          (P.LogLuvDecode
            (sample (pos + Vec2.mk (t.1 * u.Spread * u.ScaleX) (t.1 * u.Spread * u.ScaleY))))).sum)

end Blur

/-! ## `shaderThresholdSource` -/

namespace Threshold

/-- The uniform variables of the threshold shader. -/
structure Uniforms where
  LumaThreshold : ℚ
  BloomStrength : ℚ
deriving DecidableEq, Repr

/-- `Fragment` of `shaderThresholdSource`. -/
def Fragment (P : Prelude) (imageSrc0At : Sampler) (u : Uniforms)
    (_dstPos : Vec4) (srcPos : Vec2) (_color : Vec4) : Vec4 :=
  let lluv := imageSrc0At srcPos
  let luma := P.LogLuvLuma lluv
  if luma < u.LumaThreshold then
    Vec4.splat 0
  else
    let rgb := (P.LogLuvDecode lluv).mulS u.BloomStrength
    P.LogLuvEncode rgb

end Threshold

/-! ## `shaderTonemapSource` -/

namespace Tonemap

/-- `uncharted2_tonemap_partial` of `shaderTonemapSource`. -/
def uncharted2_tonemap_partial (x : Vec3) : Vec3 :=
  let A : ℚ := 0.15
  let B : ℚ := 0.50
  let C : ℚ := 0.10
  let D : ℚ := 0.20
  let E : ℚ := 0.02
  let F : ℚ := 0.30
  Vec3.subS
    (Vec3.addS (x * Vec3.addS (Vec3.sMul A x) (C * B)) (D * E)
      / Vec3.addS (x * Vec3.addS (Vec3.sMul A x) B) (D * F))
    (E / F)

/-- `uncharted2_filmic` of `shaderTonemapSource`. -/
def uncharted2_filmic (v : Vec3) : Vec3 :=
  let exposure_bias : ℚ := 2.0
  let curr := uncharted2_tonemap_partial (v.mulS exposure_bias)
  let W := Vec3.splat 11.2
  let white_scale := Vec3.splat 1.0 / uncharted2_tonemap_partial W
  curr * white_scale

/-- `Fragment` of `shaderTonemapSource`. -/
def Fragment (P : Prelude) (imageSrc0UnsafeAt imageSrc1UnsafeAt : Sampler)
    (_dstPos : Vec4) (srcPos : Vec2) (_color : Vec4) : Vec4 :=
  let lluv := imageSrc0UnsafeAt srcPos
  let lluvBloom := imageSrc1UnsafeAt srcPos
  let rgb := P.LogLuvDecode lluv + P.LogLuvDecode lluvBloom
  let mapped := uncharted2_filmic rgb
  Vec4.ofVec3 mapped 1

/-- The scalar curve `T` that `uncharted2_tonemap_partial` applies to each
component, with the constants of the source. -/
def curve (x : ℚ) : ℚ :=
  (x * (0.15 * x + 0.10 * 0.50) + 0.20 * 0.02) / (x * (0.15 * x + 0.50) + 0.20 * 0.30)
    - 0.02 / 0.30

/-- The denominator `x*(A*x+B)+D*F` of the curve. -/
def curveDenominator (x : ℚ) : ℚ :=
  x * (0.15 * x + 0.50) + 0.20 * 0.30

end Tonemap

/-! ## Images and draw calls -/

/-- Go `image.Point`. -/
structure Point where
  X : Int
  Y : Int
deriving DecidableEq, Repr

/-- Go `image.Rectangle`. -/
structure Rectangle where
  Min : Point
  Max : Point
deriving DecidableEq, Repr

/-- `Rectangle.Dx`: the width. -/
def Rectangle.Dx (r : Rectangle) : Int := r.Max.X - r.Min.X

/-- `Rectangle.Dy`: the height. -/
def Rectangle.Dy (r : Rectangle) : Int := r.Max.Y - r.Min.Y

/-- What `*ebiten.Image` points to: `id` is the identity of the allocation
(two images are the same buffer when their ids agree), `bounds` is what
`Bounds()` returns. A `nil` pointer is `none : Option Image`. -/
structure Image where
  id : Nat
  bounds : Rectangle
deriving DecidableEq, Repr

/-- `(*ebiten.Image).Bounds`. -/
def Image.Bounds (i : Image) : Rectangle := i.bounds

/-- Modelled from the spec: `ebiten.NewImage(w, h)`, the substrate operation
`allocateImage(w,h) -> ImageHandle` whose `imageDimensions` are `(w,h)`. The
new image gets the next unused id `heap` and the bounds `(0,0)-(w,h)`; the
second component is the next unused id afterwards. -/
def NewImage (heap : Nat) (w h : Int) : Image × Nat :=
  (⟨heap, ⟨⟨0, 0⟩, ⟨w, h⟩⟩⟩, heap + 1)

/-- The four compiled shaders `shaderCopy`, `shaderBlur`, `shaderThreshold`,
`shaderTonemap`. -/
inductive Shader where
  | shaderCopy
  | shaderBlur
  | shaderThreshold
  | shaderTonemap
deriving DecidableEq, Repr

/-- The values of `ebiten.Blend` that occur: the zero value and `BlendCopy`. -/
inductive Blend where
  | BlendSourceOver
  | BlendCopy
deriving DecidableEq, Repr

/-- The fields of `ebiten.DrawRectShaderOptions` that `DrawFinalScreen` sets.
`Images` is the array `[4]*ebiten.Image`, `Uniforms` the map literal as an
association list in the order it is written. -/
structure DrawRectShaderOptions where
  Images : List (Option Image) := [none, none, none, none]
  Blend : Blend := Blend.BlendSourceOver
  Uniforms : List (String × ℚ) := []
deriving DecidableEq, Repr

/-- The value a shader reads for the uniform `name`: the entry of the map,
and zero for a name the map does not set. -/
def uniformValue (m : List (String × ℚ)) (name : String) : ℚ :=
  (m.lookup name).getD 0

/-- One `target.DrawRectShader(width, height, shader, &options)` call. -/
structure DrawCall where
  target : Image
  width : Int
  height : Int
  shader : Shader
  options : DrawRectShaderOptions
deriving DecidableEq, Repr

/-- The `ebiten.GeoM` handed through to `DefaultDrawFinalScreen`. -/
structure GeoM where
  a : ℚ
  b : ℚ
  c : ℚ
  d : ℚ
  tx : ℚ
  ty : ℚ
deriving DecidableEq, Repr

/-- What `DrawFinalScreen` asks of ebiten, in the order of the calls. -/
inductive Event where
  | drawRectShader (call : DrawCall)
  | debugPrintAt (target : Image) (text : String) (x y : Int)
  | defaultDrawFinalScreen (src : Image) (geoM : GeoM)
deriving DecidableEq, Repr

/-- `target.DrawRectShader(w, h, shader, &dops)`; a `nil` receiver panics
(`none`). -/
def DrawRectShader (target : Option Image) (w h : Int) (shader : Shader)
    (dops : DrawRectShaderOptions) : Option Event :=
  target.map fun t => Event.drawRectShader ⟨t, w, h, shader, dops⟩

/-- `ebitenutil.DebugPrintAt(image, text, x, y)`; a `nil` image panics. -/
def DebugPrintAt (image : Option Image) (text : String) (x y : Int) : Option Event :=
  image.map fun t => Event.debugPrintAt t text x y

/-- `ebiten.DefaultDrawFinalScreen(screen, offscreen, geoM)`; a `nil`
offscreen panics. -/
def DefaultDrawFinalScreen (offscreen : Option Image) (geoM : GeoM) : Option Event :=
  offscreen.map fun t => Event.defaultDrawFinalScreen t geoM

/-! ## `Game` -/

/-- The `Game` struct. -/
structure Game where
  image : Option Image := none
  temp : Option Image := none
  bloom : Option Image := none
deriving DecidableEq, Repr

/-- A `Game` together with the next unused image id. -/
structure World where
  g : Game
  heap : Nat
deriving DecidableEq, Repr

/-- The lazy (re)allocation at the head of `DrawFinalScreen`:
`if g.temp == nil || g.temp.Bounds() != offscreen.Bounds()`. -/
def needsAlloc (g : Game) (offscreen : Image) : Bool :=
  match g.temp with
  | none => true
  | some t => t.Bounds != offscreen.Bounds

/-- One iteration of `for pass := range 5` in `DrawFinalScreen`, `pass`
being the loop variable before `pass += 1`. -/
def blurPass (g : Game) (w h : Int) (pass : Nat) : Option (List Event) :=
  let pass := pass + 1
  do
    let eh ← DrawRectShader g.temp w h Shader.shaderBlur
      { Images := [g.bloom, none, none, none]
        Blend := Blend.BlendCopy
        Uniforms := [("Spread", (pass : ℚ)), ("ScaleX", 1.0)] }
    let ev ← DrawRectShader g.bloom w h Shader.shaderBlur
      { Images := [g.temp, none, none, none]
        Blend := Blend.BlendCopy
        Uniforms := [("Spread", (pass : ℚ)), ("ScaleY", 1.0)] }
    pure [eh, ev]

/-- `Game.DrawFinalScreen`. `text` is the string `fmt.Sprintf` builds from
`ebiten.ActualFPS()`. The result is the game and heap after the call and the
calls made, in order; `none` is a panic on a `nil` image. -/
def DrawFinalScreen (s : World) (offscreen : Image) (text : String) (geoM : GeoM) :
    Option (World × List Event) :=
  let w := offscreen.Bounds.Dx
  let h := offscreen.Bounds.Dy
  let s : World :=
    if needsAlloc s.g offscreen then
      let (temp, heap) := NewImage s.heap w h
      let (bloom, heap) := NewImage heap w h
      ⟨{ s.g with temp := some temp, bloom := some bloom }, heap⟩
    else s
  let g := s.g
  do
    let threshold ← DrawRectShader g.bloom w h Shader.shaderThreshold
      { Images := [some offscreen, none, none, none]
        Blend := Blend.BlendCopy
        Uniforms := [("LumaThreshold", 2), ("BloomStrength", 0.2)] }
    let blurs ← (List.range 5).mapM (blurPass g w h)
    let tonemap ← DrawRectShader g.temp w h Shader.shaderTonemap
      { Images := [some offscreen, g.bloom, none, none]
        Blend := Blend.BlendCopy }
    let debug ← DebugPrintAt g.temp text 16 16
    let present ← DefaultDrawFinalScreen g.temp geoM
    pure (s, [threshold] ++ blurs.flatten ++ [tonemap, debug, present])

/-- The states reachable from a zero-valued `Game`: by `DrawFinalScreen`
calls with any scene, and by allocations made elsewhere in between. -/
inductive Reachable : World → Prop where
  | zero (heap : Nat) : Reachable ⟨{}, heap⟩
  | call {s s' : World} {events : List Event} (offscreen : Image) (text : String)
      (geoM : GeoM) : Reachable s →
      DrawFinalScreen s offscreen text geoM = some (s', events) → Reachable s'
  | allocElsewhere {s : World} : Reachable s → Reachable ⟨s.g, s.heap + 1⟩

/-- The shader draws among a list of events. -/
def shaderDraws : List Event → List DrawCall
  | [] => []
  | Event.drawRectShader c :: es => c :: shaderDraws es
  | _ :: es => shaderDraws es

/-- The options of a draw with one input image, blend `BlendCopy`. -/
def copyBlendOptions (src : Image) (uniforms : List (String × ℚ)) : DrawRectShaderOptions :=
  { Images := [some src, none, none, none], Blend := Blend.BlendCopy, Uniforms := uniforms }

/-- The threshold draw of the specification: reads `scene`, writes `bloom`. -/
def specThreshold (scene bloom : Image) (w h : Int) : DrawCall :=
  ⟨bloom, w, h, Shader.shaderThreshold,
    copyBlendOptions scene [("LumaThreshold", 2), ("BloomStrength", 1 / 5)]⟩

/-- The horizontal blur of the specification for one pass: reads `bloom`,
writes `temp`, uniforms `Spread = pass`, `ScaleX = 1`. -/
def specBlurH (temp bloom : Image) (w h : Int) (pass : ℚ) : DrawCall :=
  ⟨temp, w, h, Shader.shaderBlur, copyBlendOptions bloom [("Spread", pass), ("ScaleX", 1)]⟩

/-- The vertical blur of the specification for one pass: reads `temp`,
writes `bloom`, uniforms `Spread = pass`, `ScaleY = 1`. -/
def specBlurV (temp bloom : Image) (w h : Int) (pass : ℚ) : DrawCall :=
  ⟨bloom, w, h, Shader.shaderBlur, copyBlendOptions temp [("Spread", pass), ("ScaleY", 1)]⟩

/-- The tonemap draw of the specification: reads `scene` as input 0 and
`bloom` as input 1, writes `temp`. -/
def specTonemap (scene temp bloom : Image) (w h : Int) : DrawCall :=
  ⟨temp, w, h, Shader.shaderTonemap,
    { Images := [some scene, some bloom, none, none], Blend := Blend.BlendCopy }⟩

/-- The twelve draws of one frame in the order the specification gives. -/
def specDraws (scene temp bloom : Image) (w h : Int) : List DrawCall :=
  [specThreshold scene bloom w h,
   specBlurH temp bloom w h 1, specBlurV temp bloom w h 1,
   specBlurH temp bloom w h 2, specBlurV temp bloom w h 2,
   specBlurH temp bloom w h 3, specBlurV temp bloom w h 3,
   specBlurH temp bloom w h 4, specBlurV temp bloom w h 4,
   specBlurH temp bloom w h 5, specBlurV temp bloom w h 5,
   specTonemap scene temp bloom w h]

/-- The events of one frame in the order the specification gives: the
twelve draws, the FPS text printed on `temp`, and `temp` presented. -/
def specEvents (scene temp bloom : Image) (w h : Int) (text : String) (geoM : GeoM) :
    List Event :=
  (specDraws scene temp bloom w h).map Event.drawRectShader
    ++ [Event.debugPrintAt temp text 16 16, Event.defaultDrawFinalScreen temp geoM]

/-- Both scratch buffers unallocated, or both allocated with equal bounds. -/
def BuffersAgree (g : Game) : Prop :=
  (g.temp = none ∧ g.bloom = none) ∨
    ∃ t b, g.temp = some t ∧ g.bloom = some b ∧ t.Bounds = b.Bounds

/-! ## Componentwise lemmas -/

@[simp] theorem Vec2.add2_x (a b : Vec2) : (a + b).x = a.x + b.x := rfl
@[simp] theorem Vec2.add2_y (a b : Vec2) : (a + b).y = a.y + b.y := rfl
@[simp] theorem Vec3.add_x (a b : Vec3) : (a + b).x = a.x + b.x := rfl
@[simp] theorem Vec3.add_y (a b : Vec3) : (a + b).y = a.y + b.y := rfl
@[simp] theorem Vec3.add_z (a b : Vec3) : (a + b).z = a.z + b.z := rfl
@[simp] theorem Vec3.mul_x (a b : Vec3) : (a * b).x = a.x * b.x := rfl
@[simp] theorem Vec3.mul_y (a b : Vec3) : (a * b).y = a.y * b.y := rfl
@[simp] theorem Vec3.mul_z (a b : Vec3) : (a * b).z = a.z * b.z := rfl
@[simp] theorem Vec3.div_x (a b : Vec3) : (a / b).x = a.x / b.x := rfl
@[simp] theorem Vec3.div_y (a b : Vec3) : (a / b).y = a.y / b.y := rfl
@[simp] theorem Vec3.div_z (a b : Vec3) : (a / b).z = a.z / b.z := rfl
@[simp] theorem Vec3.zero_x : (0 : Vec3).x = 0 := rfl
@[simp] theorem Vec3.zero_y : (0 : Vec3).y = 0 := rfl
@[simp] theorem Vec3.zero_z : (0 : Vec3).z = 0 := rfl

theorem Vec3.ext_iff3 (a b : Vec3) : a = b ↔ a.x = b.x ∧ a.y = b.y ∧ a.z = b.z := by
  cases a; cases b; simp

/-! ## The shaders -/

/-- C8: the colour-copy `Fragment` returns `LogLuvEncode` of the
componentwise product of the source pixel's rgb and the tint's rgb, and
replacing the source's alpha or the tint's alpha by any other value leaves
the result unchanged. -/
theorem copy_fragment_encodes_rgb_times_tint (P : Prelude) (img : Sampler) (dstPos : Vec4)
    (srcPos : Vec2) (t : Vec4) (a a' : ℚ) :
    Copy.Fragment P img dstPos srcPos t
        = P.LogLuvEncode
            ⟨(img srcPos).x * t.x, (img srcPos).y * t.y, (img srcPos).z * t.z⟩ ∧
      Copy.Fragment P (fun p => { img p with w := a }) dstPos srcPos { t with w := a' }
        = Copy.Fragment P img dstPos srcPos t :=
  ⟨rfl, rfl⟩

/-- C2: the blur `Fragment` returns the encoding of the weighted sum of the
nine decoded taps, at the offsets -4..4 scaled by `Spread*ScaleX` and
`Spread*ScaleY`, with the weights 0.05, 0.09, 0.12, 0.15, 0.16, 0.15, 0.12,
0.09, 0.05; the sum is taken on decoded values and encoded once. -/
theorem blur_fragment_eq_spec (P : Prelude) (img : Sampler) (u : Blur.Uniforms)
    (dstPos : Vec4) (pos : Vec2) (color : Vec4) :
    Blur.Fragment P img u dstPos pos color = Blur.specFragment P img u pos := by
  dsimp only [Blur.Fragment, Blur.specFragment]
  congr 1
  rw [Vec3.ext_iff3]
  simp only [Blur.specKernel, Blur.tap, List.map, List.sum_cons, List.sum_nil, Vec3.add_x,
    Vec3.add_y, Vec3.add_z, Vec3.zero_x, Vec3.zero_y, Vec3.zero_z, Vec3.mulS, Vec3.sMul]
  refine ⟨?_, ?_, ?_⟩ <;> ring

/-- C3: the threshold `Fragment` returns the zero vector when the luma of
the sampled pixel is below `LumaThreshold`, and otherwise, equality
included, the encoding of the decoded pixel times `BloomStrength`. -/
theorem threshold_fragment_cases (P : Prelude) (img : Sampler) (u : Threshold.Uniforms)
    (dstPos : Vec4) (srcPos : Vec2) (color : Vec4) :
    (P.LogLuvLuma (img srcPos) < u.LumaThreshold →
        Threshold.Fragment P img u dstPos srcPos color = ⟨0, 0, 0, 0⟩) ∧
      (u.LumaThreshold ≤ P.LogLuvLuma (img srcPos) →
        Threshold.Fragment P img u dstPos srcPos color
          = P.LogLuvEncode ((P.LogLuvDecode (img srcPos)).mulS u.BloomStrength)) := by
  constructor
  · intro h
    simp [Threshold.Fragment, h, Vec4.splat]
  · intro h
    simp [Threshold.Fragment, not_lt.mpr h]

/-- Witness for C3: with the plain prelude and threshold 2, a pixel of luma
1 gives zero and a pixel of luma exactly 2 gives the scaled colour. -/
theorem threshold_fragment_cases_witness :
    Threshold.Fragment plainPrelude (fun _ => ⟨1, 1, 1, 0⟩) ⟨2, 1 / 5⟩ ⟨0, 0, 0, 0⟩ ⟨0, 0⟩
        ⟨1, 1, 1, 1⟩ = ⟨0, 0, 0, 0⟩ ∧
      Threshold.Fragment plainPrelude (fun _ => ⟨2, 2, 2, 0⟩) ⟨2, 1 / 5⟩ ⟨0, 0, 0, 0⟩ ⟨0, 0⟩
        ⟨1, 1, 1, 1⟩ = ⟨2 / 5, 2 / 5, 2 / 5, 1⟩ := by
  have h1 := (threshold_fragment_cases plainPrelude (fun _ => ⟨1, 1, 1, 0⟩) ⟨2, 1 / 5⟩
    ⟨0, 0, 0, 0⟩ ⟨0, 0⟩ ⟨1, 1, 1, 1⟩).1 (by norm_num [plainPrelude])
  have h2 := (threshold_fragment_cases plainPrelude (fun _ => ⟨2, 2, 2, 0⟩) ⟨2, 1 / 5⟩
    ⟨0, 0, 0, 0⟩ ⟨0, 0⟩ ⟨1, 1, 1, 1⟩).2 (by norm_num [plainPrelude])
  refine ⟨h1, ?_⟩
  rw [h2]
  norm_num [plainPrelude, Vec4.ofVec3, Vec4.xyz, Vec3.mulS]

/-- The blur `Fragment` on any sampler whose nine taps all read `c`. -/
theorem blur_fragment_of_taps_eq (P : Prelude) (img : Sampler) (c : Vec4) (u : Blur.Uniforms)
    (dstPos : Vec4) (pos : Vec2) (color : Vec4)
    (h : ∀ t ∈ Blur.specKernel,
      img (pos + Vec2.mk (t.1 * u.Spread * u.ScaleX) (t.1 * u.Spread * u.ScaleY)) = c) :
    Blur.Fragment P img u dstPos pos color
      = P.LogLuvEncode (Vec3.sMul 0.98 (P.LogLuvDecode c)) := by
  have e : ∀ o w : ℚ, (o, w) ∈ Blur.specKernel →
      img (pos + Vec2.mk (o * u.Spread * u.ScaleX) (o * u.Spread * u.ScaleY)) = c :=
    fun o w hm => h (o, w) hm
  have h1 := e (-4) 0.05 (by norm_num [Blur.specKernel])
  have h2 := e (-3) 0.09 (by norm_num [Blur.specKernel])
  have h3 := e (-2) 0.12 (by norm_num [Blur.specKernel])
  have h4 := e (-1) 0.15 (by norm_num [Blur.specKernel])
  have h5 := e 0 0.16 (by norm_num [Blur.specKernel])
  have h6 := e 1 0.15 (by norm_num [Blur.specKernel])
  have h7 := e 2 0.12 (by norm_num [Blur.specKernel])
  have h8 := e 3 0.09 (by norm_num [Blur.specKernel])
  have h9 := e 4 0.05 (by norm_num [Blur.specKernel])
  dsimp only [Blur.Fragment]
  congr 1
  rw [Vec3.ext_iff3]
  simp only [Blur.tap, h1, h2, h3, h4, h5, h6, h7, h8, h9, Vec3.add_x, Vec3.add_y, Vec3.add_z,
    Vec3.zero_x, Vec3.zero_y, Vec3.zero_z, Vec3.mulS, Vec3.sMul]
  refine ⟨?_, ?_, ?_⟩ <;> ring

/-- C6, as stated, fails: on the 100x100 image whose every pixel is
(1, 2, 3, 0), blurred horizontally with spread 3 under the plain prelude, the
taps at offsets -4 and -3 of position (7, 5) fall left of the image and read
`vec4(0)`, so the `Fragment` returns the colour scaled by 21/25, not by 0.98. -/
theorem blur_uniform_image_border :
    Blur.Fragment plainPrelude (uniformImage 100 100 ⟨1, 2, 3, 0⟩).imageSrc0At ⟨3, 1, 0⟩
          ⟨0, 0, 0, 0⟩ ⟨7, 5⟩ ⟨1, 1, 1, 1⟩
        = plainPrelude.LogLuvEncode (Vec3.sMul (21 / 25) (plainPrelude.LogLuvDecode ⟨1, 2, 3, 0⟩)) ∧
      Blur.Fragment plainPrelude (uniformImage 100 100 ⟨1, 2, 3, 0⟩).imageSrc0At ⟨3, 1, 0⟩
          ⟨0, 0, 0, 0⟩ ⟨7, 5⟩ ⟨1, 1, 1, 1⟩
        ≠ plainPrelude.LogLuvEncode (Vec3.sMul 0.98 (plainPrelude.LogLuvDecode ⟨1, 2, 3, 0⟩)) := by
  have hv : Blur.Fragment plainPrelude (uniformImage 100 100 ⟨1, 2, 3, 0⟩).imageSrc0At ⟨3, 1, 0⟩
      ⟨0, 0, 0, 0⟩ ⟨7, 5⟩ ⟨1, 1, 1, 1⟩ = ⟨21 / 25, 42 / 25, 63 / 25, 1⟩ := by
    simp only [Blur.Fragment, Blur.tap, SourceImage.imageSrc0At, SourceImage.contains,
      uniformImage, plainPrelude, Vec4.ofVec3, Vec4.xyz, Vec4.splat, Vec3.mulS, Vec2.add2_x,
      Vec2.add2_y, Vec3.add_x, Vec3.add_y, Vec3.add_z, Vec3.zero_x, Vec3.zero_y, Vec3.zero_z]
    norm_num
  rw [hv]
  constructor
  · norm_num [plainPrelude, Vec4.ofVec3, Vec4.xyz, Vec3.sMul]
  · norm_num [plainPrelude, Vec4.ofVec3, Vec4.xyz, Vec3.sMul]

/-- C6, amended: the nine weights add up to 49/50, and on an image whose
pixels are all `c`, at every position whose nine taps lie in the source
region, the blur `Fragment` returns, for every `Spread` and axis, the
encoding of 0.98 times the decoded `c`. -/
theorem blur_uniform_image_interior (P : Prelude) (im : SourceImage) (c : Vec4)
    (u : Blur.Uniforms) (dstPos : Vec4) (pos : Vec2) (color : Vec4)
    (huniform : ∀ p, im.contains p → im.pixel p = c)
    (hin : ∀ t ∈ Blur.specKernel,
      im.contains (pos + Vec2.mk (t.1 * u.Spread * u.ScaleX) (t.1 * u.Spread * u.ScaleY))) :
    (Blur.specKernel.map Prod.snd).sum = 49 / 50 ∧
      Blur.Fragment P im.imageSrc0At u dstPos pos color
        = P.LogLuvEncode (Vec3.sMul 0.98 (P.LogLuvDecode c)) := by
  constructor
  · norm_num [Blur.specKernel]
  · apply blur_fragment_of_taps_eq
    intro t ht
    have hc := hin t ht
    simp only [SourceImage.imageSrc0At, hc, if_true]
    exact huniform _ hc

/-- Witness for C6: the 100x100 image whose every pixel is (1, 2, 3, 0),
blurred horizontally with spread 3 at position (50, 5), whose taps reach
from x = 38 to x = 62. -/
theorem blur_uniform_image_interior_witness :
    Blur.Fragment plainPrelude (uniformImage 100 100 ⟨1, 2, 3, 0⟩).imageSrc0At ⟨3, 1, 0⟩
        ⟨0, 0, 0, 0⟩ ⟨50, 5⟩ ⟨1, 1, 1, 1⟩
      = ⟨49 / 50, 49 / 25, 147 / 50, 1⟩ := by
  rw [(blur_uniform_image_interior plainPrelude (uniformImage 100 100 ⟨1, 2, 3, 0⟩) ⟨1, 2, 3, 0⟩
    ⟨3, 1, 0⟩ ⟨0, 0, 0, 0⟩ ⟨50, 5⟩ ⟨1, 1, 1, 1⟩ (fun _ _ => rfl) (by
      intro t ht
      simp only [Blur.specKernel, List.mem_cons, List.mem_singleton, List.not_mem_nil,
        or_false] at ht
      rcases ht with h | h | h | h | h | h | h | h | h <;> subst h <;>
        norm_num [SourceImage.contains, uniformImage, Vec2.add2_x, Vec2.add2_y])).2]
  norm_num [plainPrelude, Vec4.ofVec3, Vec4.xyz, Vec3.sMul]

/-! ## The tonemap curve -/

theorem tonemap_partial_components (v : Vec3) (i : Fin 3) :
    ( Tonemap.uncharted2_tonemap_partial v).get i = Tonemap.curve (v.get i) := by
  fin_cases i <;> rfl

theorem filmic_components (v : Vec3) (i : Fin 3) :
    (Tonemap.uncharted2_filmic v).get i
      = Tonemap.curve (v.get i * 2) * (1 / Tonemap.curve 11.2) := by
  have h2 : (2.0 : ℚ) = 2 := by norm_num
  have h1 : (1.0 : ℚ) = 1 := by norm_num
  fin_cases i <;>
    simp only [Tonemap.uncharted2_filmic, Vec3.get, Vec3.mulS, Vec3.splat,
      Tonemap.uncharted2_tonemap_partial, Tonemap.curve, Vec3.addS, Vec3.subS, Vec3.sMul,
      Vec3.mul_x, Vec3.mul_y, Vec3.mul_z, Vec3.div_x, Vec3.div_y, Vec3.div_z, h1, h2]

theorem curveDenominator_pos (x : ℚ) (hx : 0 ≤ x) : 0 < Tonemap.curveDenominator x := by
  unfold Tonemap.curveDenominator
  have h : 0 ≤ x * (0.15 * x + 0.50) := mul_nonneg hx (by linarith)
  norm_num at h ⊢
  linarith

theorem curve_eq_div (x : ℚ) :
    Tonemap.curve x
      = (x * (0.15 * x + 0.10 * 0.50) + 0.20 * 0.02) / Tonemap.curveDenominator x
          - 0.02 / 0.30 := rfl

theorem curve_lt_curve (x y : ℚ) (hx : 0 ≤ x) (hxy : x < y) :
    Tonemap.curve x < Tonemap.curve y := by
  have hy : 0 ≤ y := le_of_lt (lt_of_le_of_lt hx hxy)
  have hdx := curveDenominator_pos x hx
  have hdy := curveDenominator_pos y hy
  rw [curve_eq_div, curve_eq_div]
  apply sub_lt_sub_right
  rw [div_lt_div_iff₀ hdx hdy]
  have key : (y * (0.15 * y + 0.10 * 0.50) + 0.20 * 0.02) * Tonemap.curveDenominator x
      - (x * (0.15 * x + 0.10 * 0.50) + 0.20 * 0.02) * Tonemap.curveDenominator y
      = (y - x) * (27 / 400 * (x * y) + 21 / 2500 * (x + y) + 1 / 1000) := by
    unfold Tonemap.curveDenominator
    ring
  have hpos : 0 < (y - x) * (27 / 400 * (x * y) + 21 / 2500 * (x + y) + 1 / 1000) := by
    apply mul_pos (sub_pos.mpr hxy)
    have h1 : 0 ≤ x * y := mul_nonneg hx hy
    linarith
  linarith

theorem curve_zero : Tonemap.curve 0 = 0 := by
  norm_num [Tonemap.curve]

theorem curve_nonneg (x : ℚ) (hx : 0 ≤ x) : 0 ≤ Tonemap.curve x := by
  rcases eq_or_lt_of_le hx with h | h
  · rw [← h, curve_zero]
  · have := curve_lt_curve 0 x le_rfl h
    rw [curve_zero] at this
    exact le_of_lt this

theorem curve_white_pos : 0 < Tonemap.curve 11.2 := by
  norm_num [Tonemap.curve]

theorem curve_injOn (x y : ℚ) (hx : 0 ≤ x) (hy : 0 ≤ y)
    (h : Tonemap.curve x = Tonemap.curve y) : x = y := by
  rcases lt_trichotomy x y with hlt | heq | hgt
  · exact absurd h (ne_of_lt (curve_lt_curve x y hx hlt))
  · exact heq
  · exact absurd h.symm (ne_of_lt (curve_lt_curve y x hy hgt))

theorem Vec3.ext_get (a b : Vec3) (h : ∀ i, a.get i = b.get i) : a = b := by
  rw [Vec3.ext_iff3]
  exact ⟨h 0, h 1, h 2⟩

theorem filmic_lt_filmic (a b : Vec3) (i : Fin 3) (h0 : 0 ≤ a.get i)
    (hlt : a.get i < b.get i) :
    (Tonemap.uncharted2_filmic a).get i < (Tonemap.uncharted2_filmic b).get i := by
  rw [filmic_components, filmic_components]
  apply mul_lt_mul_of_pos_right
  · exact curve_lt_curve _ _ (by linarith) (by linarith)
  · exact one_div_pos.mpr curve_white_pos

/-- C4, as stated, fails: the reference white (11.2, 11.2, 11.2) is not
mapped to (1, 1, 1) by `uncharted2_filmic`. -/
theorem filmic_reference_white_ne_one :
    Tonemap.uncharted2_filmic ⟨11.2, 11.2, 11.2⟩ ≠ ⟨1, 1, 1⟩ := by
  intro h
  have hx := congrArg (fun v => Vec3.get v 0) h
  simp only [filmic_components] at hx
  norm_num [Vec3.get, Tonemap.curve] at hx

/-- C4, amended: `uncharted2_filmic` maps (11.2, 11.2, 11.2) to
57873502/51416887 (about 1.1256) in every channel, the input being doubled
by `exposure_bias` before the curve; what the white scale normalises to
(1, 1, 1) is the curve value at `W` itself. -/
theorem filmic_reference_white_value :
    Tonemap.uncharted2_filmic ⟨11.2, 11.2, 11.2⟩
        = ⟨57873502 / 51416887, 57873502 / 51416887, 57873502 / 51416887⟩ ∧
      Tonemap.uncharted2_tonemap_partial (Vec3.splat 11.2)
          * (Vec3.splat 1.0 / Tonemap.uncharted2_tonemap_partial (Vec3.splat 11.2))
        = ⟨1, 1, 1⟩ := by
  constructor
  · apply Vec3.ext_get
    intro i
    rw [filmic_components]
    fin_cases i <;> norm_num [Vec3.get, Tonemap.curve]
  · rw [Vec3.ext_iff3]
    norm_num [Tonemap.uncharted2_tonemap_partial, Vec3.splat, Vec3.addS, Vec3.subS, Vec3.sMul]

/-- C5: `uncharted2_tonemap_partial` and `uncharted2_filmic` map the zero
colour to the zero colour, the tonemap `Fragment` always returns alpha 1,
and it returns (0, 0, 0, 1) when both sampled pixels decode to zero. -/
theorem tonemap_zero_alpha_one (P : Prelude) (img0 img1 : Sampler) (dstPos : Vec4)
    (srcPos : Vec2) (color : Vec4) :
    Tonemap.uncharted2_tonemap_partial ⟨0, 0, 0⟩ = ⟨0, 0, 0⟩ ∧
      Tonemap.uncharted2_filmic ⟨0, 0, 0⟩ = ⟨0, 0, 0⟩ ∧
      (Tonemap.Fragment P img0 img1 dstPos srcPos color).w = 1 ∧
      (P.LogLuvDecode (img0 srcPos) = ⟨0, 0, 0⟩ → P.LogLuvDecode (img1 srcPos) = ⟨0, 0, 0⟩ →
        Tonemap.Fragment P img0 img1 dstPos srcPos color = ⟨0, 0, 0, 1⟩) := by
  have hT : Tonemap.uncharted2_tonemap_partial ⟨0, 0, 0⟩ = ⟨0, 0, 0⟩ := by
    apply Vec3.ext_get
    intro i
    rw [tonemap_partial_components]
    fin_cases i <;> simp [Vec3.get, curve_zero]
  have hF : Tonemap.uncharted2_filmic ⟨0, 0, 0⟩ = ⟨0, 0, 0⟩ := by
    apply Vec3.ext_get
    intro i
    rw [filmic_components]
    fin_cases i <;> simp [Vec3.get, curve_zero]
  refine ⟨hT, hF, rfl, ?_⟩
  intro h0 h1
  have hsum : P.LogLuvDecode (img0 srcPos) + P.LogLuvDecode (img1 srcPos) = ⟨0, 0, 0⟩ := by
    rw [h0, h1, Vec3.ext_iff3]
    simp
  simp only [Tonemap.Fragment, hsum, hF, Vec4.ofVec3]

/-- Witness for C5: two all-zero pixels under the plain prelude. -/
theorem tonemap_zero_alpha_one_witness :
    Tonemap.Fragment plainPrelude (fun _ => ⟨0, 0, 0, 0⟩) (fun _ => ⟨0, 0, 0, 1⟩) ⟨0, 0, 0, 0⟩
      ⟨3, 4⟩ ⟨1, 1, 1, 1⟩ = ⟨0, 0, 0, 1⟩ :=
  (tonemap_zero_alpha_one plainPrelude (fun _ => ⟨0, 0, 0, 0⟩) (fun _ => ⟨0, 0, 0, 1⟩)
    ⟨0, 0, 0, 0⟩ ⟨3, 4⟩ ⟨1, 1, 1, 1⟩).2.2.2 rfl rfl

/-- C9: for every x ≥ 0 the denominator `x*(A*x+B)+D*F` of
`uncharted2_tonemap_partial` is positive, and in every channel
`uncharted2_tonemap_partial` and `uncharted2_filmic` are strictly increasing
and non-negative on non-negative inputs. -/
theorem tonemap_curve_increasing :
    (∀ (v : Vec3) (i : Fin 3),
        ( Tonemap.uncharted2_tonemap_partial v).get i
          = (v.get i * (0.15 * v.get i + 0.10 * 0.50) + 0.20 * 0.02)
              / Tonemap.curveDenominator (v.get i) - 0.02 / 0.30) ∧
      (∀ x : ℚ, 0 ≤ x → 0 < Tonemap.curveDenominator x) ∧
      (∀ (a b : Vec3) (i : Fin 3), 0 ≤ a.get i → a.get i < b.get i →
        ( Tonemap.uncharted2_tonemap_partial a).get i
          < ( Tonemap.uncharted2_tonemap_partial b).get i) ∧
      (∀ (a : Vec3) (i : Fin 3), 0 ≤ a.get i →
        0 ≤ ( Tonemap.uncharted2_tonemap_partial a).get i) ∧
      (∀ (a b : Vec3) (i : Fin 3), 0 ≤ a.get i → a.get i < b.get i →
        (Tonemap.uncharted2_filmic a).get i < (Tonemap.uncharted2_filmic b).get i) ∧
      (∀ (a : Vec3) (i : Fin 3), 0 ≤ a.get i → 0 ≤ (Tonemap.uncharted2_filmic a).get i) := by
  refine ⟨?_, curveDenominator_pos, ?_, ?_, filmic_lt_filmic, ?_⟩
  · intro v i
    rw [tonemap_partial_components, curve_eq_div]
  · intro a b i h0 hlt
    rw [tonemap_partial_components, tonemap_partial_components]
    exact curve_lt_curve _ _ h0 hlt
  · intro a i h0
    rw [tonemap_partial_components]
    exact curve_nonneg _ h0
  · intro a i h0
    rw [filmic_components]
    exact mul_nonneg (curve_nonneg _ (by linarith)) (le_of_lt (one_div_pos.mpr curve_white_pos))

/-- Witness for C9: the green channel of (0, 1, 0) and (0, 2, 0). -/
theorem tonemap_curve_increasing_witness :
    (0 : ℚ) < Tonemap.curveDenominator 1 ∧
      ( Tonemap.uncharted2_tonemap_partial ⟨0, 1, 0⟩).get 1
        < ( Tonemap.uncharted2_tonemap_partial ⟨0, 2, 0⟩).get 1 ∧
      (Tonemap.uncharted2_filmic ⟨0, 1, 0⟩).get 1 < (Tonemap.uncharted2_filmic ⟨0, 2, 0⟩).get 1 :=
  ⟨tonemap_curve_increasing.2.1 1 (by norm_num),
    tonemap_curve_increasing.2.2.1 ⟨0, 1, 0⟩ ⟨0, 2, 0⟩ 1 (by norm_num [Vec3.get])
      (by norm_num [Vec3.get]),
    tonemap_curve_increasing.2.2.2.2.1 ⟨0, 1, 0⟩ ⟨0, 2, 0⟩ 1 (by norm_num [Vec3.get])
      (by norm_num [Vec3.get])⟩

/-- C10: `uncharted2_filmic` maps (5.6, 5.6, 5.6) to (1, 1, 1), and in each
channel 5.6 is the only non-negative input whose output is 1. -/
theorem filmic_one_iff_input :
    Tonemap.uncharted2_filmic ⟨5.6, 5.6, 5.6⟩ = ⟨1, 1, 1⟩ ∧
      ∀ (v : Vec3) (i : Fin 3), 0 ≤ v.get i → (Tonemap.uncharted2_filmic v).get i = 1 →
        v.get i = 5.6 := by
  constructor
  · apply Vec3.ext_get
    intro i
    rw [filmic_components]
    fin_cases i <;> norm_num [Vec3.get, Tonemap.curve]
  · intro v i h0 h
    rw [filmic_components] at h
    have hw := curve_white_pos
    have hc : Tonemap.curve (v.get i * 2) = Tonemap.curve 11.2 := by
      field_simp at h
      exact h
    have := curve_injOn _ _ (by linarith) (by norm_num) hc
    norm_num at this ⊢
    linarith

/-- Witness for C10: the red channel of (5.6, 0, 9). -/
theorem filmic_one_iff_input_witness :
    (Tonemap.uncharted2_filmic ⟨5.6, 0, 9⟩).get 0 = 1 ∧ (⟨5.6, 0, 9⟩ : Vec3).get 0 = 5.6 := by
  have h : (Tonemap.uncharted2_filmic ⟨5.6, 0, 9⟩).get 0 = 1 := by
    rw [filmic_components]
    norm_num [Vec3.get, Tonemap.curve]
  exact ⟨h, filmic_one_iff_input.2 ⟨5.6, 0, 9⟩ 0 (by norm_num [Vec3.get]) h⟩

/-! ## `DrawFinalScreen` -/

theorem blurPasses_eq (g : Game) (t b : Image) (w h : Int) (ht : g.temp = some t)
    (hb : g.bloom = some b) :
    (List.range 5).mapM (blurPass g w h)
      = some
          [[Event.drawRectShader (specBlurH t b w h 1), Event.drawRectShader (specBlurV t b w h 1)],
           [Event.drawRectShader (specBlurH t b w h 2), Event.drawRectShader (specBlurV t b w h 2)],
           [Event.drawRectShader (specBlurH t b w h 3), Event.drawRectShader (specBlurV t b w h 3)],
           [Event.drawRectShader (specBlurH t b w h 4), Event.drawRectShader (specBlurV t b w h 4)],
           [Event.drawRectShader (specBlurH t b w h 5), Event.drawRectShader (specBlurV t b w h 5)]] := by
  have hr : List.range 5 = [0, 1, 2, 3, 4] := rfl
  have hp : ∀ n : Nat, blurPass g w h n
      = some [Event.drawRectShader (specBlurH t b w h ((n + 1 : Nat) : ℚ)),
          Event.drawRectShader (specBlurV t b w h ((n + 1 : Nat) : ℚ))] := by
    intro n
    simp [blurPass, ht, hb, DrawRectShader, specBlurH, specBlurV, copyBlendOptions]
    norm_num
  rw [hr]
  simp only [List.mapM_cons, List.mapM_nil, hp]
  norm_num

/-- The world after the allocation step at the head of `DrawFinalScreen`. -/
theorem drawFinalScreen_eq (s s1 : World) (offscreen t b : Image) (text : String) (geoM : GeoM)
    (hs1 : s1 = if needsAlloc s.g offscreen then
        ⟨{ s.g with
            temp := some (NewImage s.heap offscreen.Bounds.Dx offscreen.Bounds.Dy).1
            bloom := some (NewImage (s.heap + 1) offscreen.Bounds.Dx offscreen.Bounds.Dy).1 },
          s.heap + 2⟩
      else s)
    (ht : s1.g.temp = some t) (hb : s1.g.bloom = some b) :
    DrawFinalScreen s offscreen text geoM
      = some (s1, specEvents offscreen t b offscreen.Bounds.Dx offscreen.Bounds.Dy text geoM) := by
  have hs1' : (if needsAlloc s.g offscreen then
      (⟨{ s.g with
            temp := some (NewImage s.heap offscreen.Bounds.Dx offscreen.Bounds.Dy).1
            bloom := some (NewImage (s.heap + 1) offscreen.Bounds.Dx offscreen.Bounds.Dy).1 },
          s.heap + 2⟩ : World)
      else s) = s1 := hs1.symm
  simp only [DrawFinalScreen, NewImage] at hs1' ⊢
  rw [hs1', blurPasses_eq s1.g t b _ _ ht hb, ht, hb]
  simp [DrawRectShader, DebugPrintAt, DefaultDrawFinalScreen, specEvents, specDraws,
    specThreshold, specTonemap, copyBlendOptions]
  norm_num

theorem needsAlloc_eq_false (g : Game) (offscreen : Image) (h : needsAlloc g offscreen = false) :
    ∃ t, g.temp = some t ∧ t.Bounds = offscreen.Bounds := by
  unfold needsAlloc at h
  cases ht : g.temp with
  | none => simp [ht] at h
  | some t =>
    refine ⟨t, rfl, ?_⟩
    simpa [ht] using h

theorem needsAlloc_eq_true_iff (g : Game) (offscreen : Image) :
    needsAlloc g offscreen = true
      ↔ g.temp = none ∨ ∃ t, g.temp = some t ∧ t.Bounds ≠ offscreen.Bounds := by
  unfold needsAlloc
  cases ht : g.temp with
  | none => simp
  | some t => simp

/-- One call of `DrawFinalScreen` from a state whose buffers agree. -/
theorem drawFinalScreen_step (s : World) (hs : BuffersAgree s.g) (offscreen : Image)
    (text : String) (geoM : GeoM) :
    ∃ (s' : World) (t b : Image),
      DrawFinalScreen s offscreen text geoM
          = some (s', specEvents offscreen t b offscreen.Bounds.Dx offscreen.Bounds.Dy text geoM) ∧
        s'.g.temp = some t ∧ s'.g.bloom = some b ∧ t.Bounds = b.Bounds ∧
        t.Bounds.Dx = offscreen.Bounds.Dx ∧ t.Bounds.Dy = offscreen.Bounds.Dy ∧
        (needsAlloc s.g offscreen = true →
          t = ⟨s.heap, ⟨⟨0, 0⟩, ⟨offscreen.Bounds.Dx, offscreen.Bounds.Dy⟩⟩⟩ ∧
          b = ⟨s.heap + 1, ⟨⟨0, 0⟩, ⟨offscreen.Bounds.Dx, offscreen.Bounds.Dy⟩⟩⟩ ∧
          s'.g.image = s.g.image ∧ s'.heap = s.heap + 2) ∧
        (needsAlloc s.g offscreen = false → s' = s) := by
  cases hn : needsAlloc s.g offscreen with
  | true =>
    refine ⟨_, ⟨s.heap, ⟨⟨0, 0⟩, ⟨offscreen.Bounds.Dx, offscreen.Bounds.Dy⟩⟩⟩,
      ⟨s.heap + 1, ⟨⟨0, 0⟩, ⟨offscreen.Bounds.Dx, offscreen.Bounds.Dy⟩⟩⟩,
      drawFinalScreen_eq s _ offscreen _ _ text geoM rfl ?_ ?_, ?_⟩
    · simp [hn, NewImage]
    · simp [hn, NewImage]
    · simp [hn, NewImage, Image.Bounds, Rectangle.Dx, Rectangle.Dy]
  | false =>
    obtain ⟨t, ht, htb⟩ := needsAlloc_eq_false _ _ hn
    rcases hs with ⟨hnone, _⟩ | ⟨t', b, ht', hb, hbounds⟩
    · rw [hnone] at ht
      cases ht
    · rw [ht] at ht'
      cases ht'
      refine ⟨s, t, b, drawFinalScreen_eq s s offscreen t b text geoM ?_ ht hb, ht, hb,
        hbounds, ?_, ?_, ?_, ?_⟩
      · simp [hn]
      · rw [htb]
      · rw [htb]
      · intro h
        cases h
      · intro _
        rfl

/-- The invariant of `Game`: in a reachable state the buffers agree. -/
theorem reachable_buffersAgree (s : World) (hs : Reachable s) : BuffersAgree s.g := by
  induction hs with
  | zero heap => exact Or.inl ⟨rfl, rfl⟩
  | call offscreen text geoM _ hcall ih =>
    obtain ⟨s1, t, b, h1, ht, hb, hbounds, _⟩ := drawFinalScreen_step _ ih offscreen text geoM
    rw [h1] at hcall
    cases hcall
    exact Or.inr ⟨t, b, ht, hb, hbounds⟩
  | allocElsewhere _ ih => exact ih

theorem shaderDraws_specEvents (scene t b : Image) (w h : Int) (text : String) (geoM : GeoM) :
    shaderDraws (specEvents scene t b w h text geoM) = specDraws scene t b w h := rfl

/-- C1: in every reachable state a call of `DrawFinalScreen` succeeds and
issues exactly the twelve shader draws of `specDraws` in that order
(threshold scene→bloom; for pass 1..5 a horizontal blur bloom→temp with
`Spread = pass, ScaleX = 1` and a vertical blur temp→bloom with
`Spread = pass, ScaleY = 1`; tonemap scene, bloom→temp), followed only by the
FPS text and the presentation of temp. Every target is temp or bloom, so a
scene that is not aliased to them is never a target; every blur draw has
one of `ScaleX`, `ScaleY` equal to 1 and the other 0. -/
theorem drawFinalScreen_draw_list (s : World) (hs : Reachable s) (offscreen : Image)
    (text : String) (geoM : GeoM) :
    ∃ (s' : World) (events : List Event) (t b : Image),
      DrawFinalScreen s offscreen text geoM = some (s', events) ∧
        s'.g.temp = some t ∧ s'.g.bloom = some b ∧
        shaderDraws events
          = [specThreshold offscreen b offscreen.Bounds.Dx offscreen.Bounds.Dy,
             specBlurH t b offscreen.Bounds.Dx offscreen.Bounds.Dy 1,
             specBlurV t b offscreen.Bounds.Dx offscreen.Bounds.Dy 1,
             specBlurH t b offscreen.Bounds.Dx offscreen.Bounds.Dy 2,
             specBlurV t b offscreen.Bounds.Dx offscreen.Bounds.Dy 2,
             specBlurH t b offscreen.Bounds.Dx offscreen.Bounds.Dy 3,
             specBlurV t b offscreen.Bounds.Dx offscreen.Bounds.Dy 3,
             specBlurH t b offscreen.Bounds.Dx offscreen.Bounds.Dy 4,
             specBlurV t b offscreen.Bounds.Dx offscreen.Bounds.Dy 4,
             specBlurH t b offscreen.Bounds.Dx offscreen.Bounds.Dy 5,
             specBlurV t b offscreen.Bounds.Dx offscreen.Bounds.Dy 5,
             specTonemap offscreen t b offscreen.Bounds.Dx offscreen.Bounds.Dy] ∧
        events = (shaderDraws events).map Event.drawRectShader
          ++ [Event.debugPrintAt t text 16 16, Event.defaultDrawFinalScreen t geoM] ∧
        (shaderDraws events).length = 12 ∧
        (∀ d ∈ shaderDraws events, d.target = t ∨ d.target = b) ∧
        (offscreen.id < s.heap →
          (∀ i, s.g.temp = some i → i.id ≠ offscreen.id) →
          (∀ i, s.g.bloom = some i → i.id ≠ offscreen.id) →
          ∀ d ∈ shaderDraws events, d.target.id ≠ offscreen.id) ∧
        (∀ d ∈ shaderDraws events, d.shader = Shader.shaderBlur →
          (uniformValue d.options.Uniforms "ScaleX" = 1 ∧
              uniformValue d.options.Uniforms "ScaleY" = 0) ∨
            (uniformValue d.options.Uniforms "ScaleX" = 0 ∧
              uniformValue d.options.Uniforms "ScaleY" = 1)) := by
  obtain ⟨s', t, b, hcall, ht, hb, _, _, _, halloc, hkeep⟩ :=
    drawFinalScreen_step s (reachable_buffersAgree s hs) offscreen text geoM
  have htargets : ∀ d ∈ specDraws offscreen t b offscreen.Bounds.Dx offscreen.Bounds.Dy,
      d.target = t ∨ d.target = b := by
    intro d hd
    simp only [specDraws, List.mem_cons, List.mem_singleton, List.not_mem_nil, or_false] at hd
    rcases hd with h | h | h | h | h | h | h | h | h | h | h | h <;> subst h <;>
      simp [specThreshold, specBlurH, specBlurV, specTonemap]
  refine ⟨s', _, t, b, hcall, ht, hb, rfl, rfl, rfl, htargets, ?_, ?_⟩
  · intro hlt htemp hbloom d hd
    have hti : t.id ≠ offscreen.id ∧ b.id ≠ offscreen.id := by
      cases hn : needsAlloc s.g offscreen with
      | true =>
        obtain ⟨h1, h2, _⟩ := halloc hn
        subst h1 h2
        constructor <;> simp <;> omega
      | false =>
        have := hkeep hn
        subst this
        exact ⟨htemp t ht, hbloom b hb⟩
    rcases htargets d hd with h | h <;> rw [h]
    · exact hti.1
    · exact hti.2
  · intro d hd hblur
    rw [shaderDraws_specEvents] at hd
    simp only [specDraws, List.mem_cons, List.mem_singleton, List.not_mem_nil, or_false] at hd
    rcases hd with h | h | h | h | h | h | h | h | h | h | h | h <;> subst h
    · simp [specThreshold] at hblur
    all_goals first
      | exact Or.inl ⟨rfl, rfl⟩
      | exact Or.inr ⟨rfl, rfl⟩
      | simp [specTonemap] at hblur

/-- Witness for C1: the first frame of a zero-valued `Game` with a 1000x600
scene. -/
theorem drawFinalScreen_draw_list_witness :
    ∃ (s' : World) (events : List Event) (t b : Image),
      DrawFinalScreen ⟨{}, 1⟩ ⟨0, ⟨⟨0, 0⟩, ⟨1000, 600⟩⟩⟩ "FPS: 60.00" ⟨1, 0, 0, 1, 0, 0⟩
          = some (s', events) ∧
        s'.g.temp = some t ∧ s'.g.bloom = some b ∧
        (shaderDraws events).length = 12 ∧
        ∀ d ∈ shaderDraws events, d.target.id ≠ 0 := by
  obtain ⟨s', events, t, b, h1, h2, h3, _, _, h6, _, h8, _⟩ :=
    drawFinalScreen_draw_list ⟨{}, 1⟩ (Reachable.zero 1) ⟨0, ⟨⟨0, 0⟩, ⟨1000, 600⟩⟩⟩
      "FPS: 60.00" ⟨1, 0, 0, 1, 0, 0⟩
  exact ⟨s', events, t, b, h1, h2, h3, h6,
    h8 (by decide) (fun i hi => by cases hi) (fun i hi => by cases hi)⟩

/-- C7: in every reachable state temp and bloom are both unallocated or both
allocated with the same bounds; a call of `DrawFinalScreen` allocates both
afresh exactly when temp is unallocated or its bounds differ from the
scene's, and otherwise keeps the state; after the call temp and bloom, and
so the presented buffer, have the scene's width and height. From the zero
`Game`, a 100x100 scene followed by a 200x200 scene leaves two buffers
allocated by the second call, both 200x200. -/
theorem drawFinalScreen_buffers (s : World) (hs : Reachable s) (offscreen : Image)
    (text : String) (geoM : GeoM) :
    BuffersAgree s.g ∧
      (∃ (s' : World) (events : List Event) (t b : Image),
        DrawFinalScreen s offscreen text geoM = some (s', events) ∧
          s'.g.temp = some t ∧ s'.g.bloom = some b ∧ t.Bounds = b.Bounds ∧
          ((s.g.temp = none ∨ ∃ t0, s.g.temp = some t0 ∧ t0.Bounds ≠ offscreen.Bounds) →
            t.id = s.heap ∧ b.id = s.heap + 1 ∧ s'.heap = s.heap + 2) ∧
          (¬(s.g.temp = none ∨ ∃ t0, s.g.temp = some t0 ∧ t0.Bounds ≠ offscreen.Bounds) →
            s' = s) ∧
          t.Bounds.Dx = offscreen.Bounds.Dx ∧ t.Bounds.Dy = offscreen.Bounds.Dy ∧
          b.Bounds.Dx = offscreen.Bounds.Dx ∧ b.Bounds.Dy = offscreen.Bounds.Dy ∧
          events.getLast? = some (Event.defaultDrawFinalScreen t geoM)) ∧
      (∀ (heap : Nat) (scene1 scene2 : Image) (text1 text2 : String) (geoM1 geoM2 : GeoM),
        scene1.Bounds.Dx = 100 → scene1.Bounds.Dy = 100 →
        scene2.Bounds.Dx = 200 → scene2.Bounds.Dy = 200 →
        ∃ (s1 s2 : World) (events1 events2 : List Event),
          DrawFinalScreen ⟨{}, heap⟩ scene1 text1 geoM1 = some (s1, events1) ∧
            DrawFinalScreen s1 scene2 text2 geoM2 = some (s2, events2) ∧
            s1.heap = heap + 2 ∧
            s2.g.temp = some ⟨heap + 2, ⟨⟨0, 0⟩, ⟨200, 200⟩⟩⟩ ∧
            s2.g.bloom = some ⟨heap + 3, ⟨⟨0, 0⟩, ⟨200, 200⟩⟩⟩) := by
  refine ⟨reachable_buffersAgree s hs, ?_, ?_⟩
  · obtain ⟨s', t, b, hcall, ht, hb, hbounds, hdx, hdy, halloc, hkeep⟩ :=
      drawFinalScreen_step s (reachable_buffersAgree s hs) offscreen text geoM
    refine ⟨s', _, t, b, hcall, ht, hb, hbounds, ?_, ?_, hdx, hdy, ?_, ?_, ?_⟩
    · intro h
      obtain ⟨h1, h2, _, h4⟩ := halloc ((needsAlloc_eq_true_iff _ _).mpr h)
      subst h1 h2
      exact ⟨rfl, rfl, h4⟩
    · intro h
      apply hkeep
      rw [← needsAlloc_eq_true_iff] at h
      simpa using h
    · rw [← hbounds, hdx]
    · rw [← hbounds, hdy]
    · simp [specEvents]
  · intro heap scene1 scene2 text1 text2 geoM1 geoM2 hx1 hy1 hx2 hy2
    obtain ⟨s1, t1, b1, hcall1, ht1, hb1, hbounds1, _, _, halloc1, _⟩ :=
      drawFinalScreen_step ⟨{}, heap⟩ (Or.inl ⟨rfl, rfl⟩) scene1 text1 geoM1
    obtain ⟨h1, _, _, hheap1⟩ := halloc1 rfl
    obtain ⟨s2, t2, b2, hcall2, ht2, hb2, _, _, _, halloc2, _⟩ :=
      drawFinalScreen_step s1 (Or.inr ⟨t1, b1, ht1, hb1, hbounds1⟩) scene2 text2 geoM2
    have hn : needsAlloc s1.g scene2 = true := by
      rw [needsAlloc_eq_true_iff]
      refine Or.inr ⟨t1, ht1, ?_⟩
      intro hEq
      have hdx : t1.Bounds.Dx = scene2.Bounds.Dx := by rw [hEq]
      rw [h1, hx2, hx1] at hdx
      simp [Image.Bounds, Rectangle.Dx] at hdx
    obtain ⟨h2, h3, _, _⟩ := halloc2 hn
    simp only [hheap1] at h2 h3
    refine ⟨s1, s2, _, _, hcall1, hcall2, hheap1, ?_, ?_⟩
    · rw [ht2, h2, hx2, hy2]
    · rw [hb2, h3, hx2, hy2]

/-- Witness for C7: the first frame of a zero-valued `Game` with a 100x100
scene allocates buffers 1 and 2, both 100 wide. -/
theorem drawFinalScreen_buffers_witness :
    ∃ (s' : World) (events : List Event) (t b : Image),
      DrawFinalScreen ⟨{}, 1⟩ ⟨0, ⟨⟨0, 0⟩, ⟨100, 100⟩⟩⟩ "FPS: 60.00" ⟨1, 0, 0, 1, 0, 0⟩
          = some (s', events) ∧
        s'.g.temp = some t ∧ s'.g.bloom = some b ∧
        t.id = 1 ∧ b.id = 2 ∧ t.Bounds.Dx = 100 ∧ b.Bounds.Dx = 100 := by
  obtain ⟨_, ⟨s', events, t, b, h1, h2, h3, _, h5, _, h7, _, h9, _⟩, _⟩ :=
    drawFinalScreen_buffers ⟨{}, 1⟩ (Reachable.zero 1) ⟨0, ⟨⟨0, 0⟩, ⟨100, 100⟩⟩⟩
      "FPS: 60.00" ⟨1, 0, 0, 1, 0, 0⟩
  obtain ⟨h5a, h5b, _⟩ := h5 (Or.inl rfl)
  exact ⟨s', events, t, b, h1, h2, h3, h5a, h5b, h7, h9⟩

end EbitenHDR
